import Mathlib

/-!
Verification of the ACCESS-NRI intake catalog builders
(`src/access_nri_intake/source/builders.py`) against its specification.

The Python code is shallowly embedded: filenames and paths are `List Char`,
Python regular expressions are an executable `Regex` AST with a backtracking
matcher mirroring Python `re` semantics (greedy quantifiers, leftmost
alternation, `re.match` anchored at the start), and Python exceptions are an
`Except PyErr` monad.
-/

set_option autoImplicit false

/-! ## Python string primitives used by `parse_filename` -/

/-- Character substitution of `re.sub(r"[-.]", "_", file_id)`. -/
def pyCharMap (c : Char) : Char := if c = '-' ∨ c = '.' then '_' else c

/-- Run collapsing of `re.sub(r"_+", "_", file_id)`: every maximal run of
underscores becomes a single underscore. -/
def collapseU : List Char → List Char
  | [] => []
  | a :: t =>
    match t with
    | [] => [a]
    | b :: _ => if a = '_' ∧ b = '_' then collapseU t else a :: collapseU t

def isUnderscore (c : Char) : Bool := c = '_'

/-- Left part of Python `str.strip("_")`. -/
def stripL (l : List Char) : List Char := l.dropWhile isUnderscore

/-- Right part of Python `str.strip("_")`. -/
def stripR (l : List Char) : List Char := (l.reverse.dropWhile isUnderscore).reverse

/-- Python `str.strip("_")`. -/
def stripU (l : List Char) : List Char := stripR (stripL l)

/-- The final normalization applied to every file id by
`BaseBuilder.parse_filename`: replace `-` and `.` by `_`, collapse repeated
`_`, strip leading and trailing `_`. -/
def normalizeId (l : List Char) : List Char := stripU (collapseU (l.map pyCharMap))

/-- Python slice `s[a:b]` for `a ≤ b ≤ len s`. -/
def extractSpan (s : List Char) (a b : Nat) : List Char := (s.take b).drop a

/-- Python `s[:a] + r + s[b:]`. -/
def splice (s : List Char) (a b : Nat) (r : List Char) : List Char :=
  s.take a ++ r ++ s.drop b

/-- One character of `re.sub(r"\d", fill, s)`. -/
def redactChar (fill c : Char) : Char := if c.isDigit then fill else c

/-- Python `re.sub(r"\d", fill, s)` for a single-character `fill`. -/
def redactDigits (fill : Char) (l : List Char) : List Char := l.map (redactChar fill)

/-! ## Python regular expressions

A small AST covering the constructs appearing in the builders' patterns,
with an executable backtracking matcher following Python `re` semantics:
greedy `*`, left-first alternation, `re.match` anchored at the start and not
required to reach the end of the string.  Named groups record their spans;
as in Python, the most recent capture of a name wins. -/

inductive Regex where
  /-- Empty regex (matches the empty string). -/
  | eps
  /-- A literal character. -/
  | lit (c : Char)
  /-- Character class `[...]` (`neg = false`) or `[^...]` (`neg = true`). -/
  | cls (neg : Bool) (cs : List Char)
  /-- Concatenation. -/
  | cat (r1 r2 : Regex)
  /-- Alternation `r1|r2`, left tried first. -/
  | alt (r1 r2 : Regex)
  /-- Greedy `r*`. -/
  | star (r : Regex)
  /-- Named capture group `(?P<n>r)`; plain numbered groups use the number
  as the name. -/
  | group (n : String) (r : Regex)
  /-- End anchor `$` (inputs contain no newline). -/
  | endAnchor
  deriving DecidableEq, Repr

/-- Captured spans, newest first; `List.lookup` therefore returns the most
recent capture, as Python does. -/
abbrev Caps := List (String × (Nat × Nat))

/-- Backtracking matcher in continuation-passing style.  `fuel` bounds the
recursion depth only; all patterns in this development are matched well
within the default fuel.  The `p = pos` guard inside `star` skips
empty-progress iterations, which never arise for the patterns used here
(every starred sub-pattern consumes at least one character). -/
def mrun : Nat → Regex → List Char → Nat → Caps →
    (Nat → Caps → Option (Nat × Caps)) → Option (Nat × Caps)
  | 0, _, _, _, _, _ => none
  | fuel + 1, r, s, pos, caps, k =>
    match r with
    | .eps => k pos caps
    | .lit c0 =>
      match s[pos]? with
      | some c => if c = c0 then k (pos + 1) caps else none
      | none => none
    | .cls neg cs =>
      match s[pos]? with
      | some c => if xor (cs.contains c) neg then k (pos + 1) caps else none
      | none => none
    | .cat r1 r2 => mrun fuel r1 s pos caps (fun p c => mrun fuel r2 s p c k)
    | .alt r1 r2 =>
      match mrun fuel r1 s pos caps k with
      | some res => some res
      | none => mrun fuel r2 s pos caps k
    | .star r1 =>
      match mrun fuel r1 s pos caps
          (fun p c => if p = pos then none else mrun fuel (.star r1) s p c k) with
      | some res => some res
      | none => k pos caps
    | .group n r1 => mrun fuel r1 s pos caps (fun p c => k p ((n, (pos, p)) :: c))
    | .endAnchor => if pos = s.length then k pos caps else none

def matchFuel : Nat := 1000

/-- Python `re.match(r, s)`: anchored at position 0, yielding the captures of
the first (leftmost-greedy) match. -/
def reMatch (r : Regex) (s : List Char) : Option Caps :=
  (mrun matchFuel r s 0 [] (fun p c => some (p, c))).map (fun res => res.2)

/-- Python `re.search(r, s)` viewed as a Boolean: does `r` match starting at
some position of `s`? -/
def reSearch (r : Regex) (s : List Char) : Bool :=
  (List.range (s.length + 1)).any
    (fun p => (mrun matchFuel r s p [] (fun q c => some (q, c))).isSome)

/-- The named groups appearing syntactically in a pattern; these are the keys
of Python's `match.groupdict()` (present even when a group did not
participate in the match). -/
def Regex.groupNames : Regex → List String
  | .eps | .lit _ | .cls _ _ | .endAnchor => []
  | .cat r1 r2 | .alt r1 r2 => r1.groupNames ++ r2.groupNames
  | .star r => r.groupNames
  | .group n r => n :: r.groupNames

/-- Result of a successful `re.match`: the pattern's group names (the
`groupdict` keys) and the captured spans. -/
structure MatchData where
  names : List String
  caps : Caps
  deriving DecidableEq, Repr

def reMatchData (r : Regex) (s : List Char) : Option MatchData :=
  (reMatch r s).map (fun caps => ⟨r.groupNames, caps⟩)

/-! ## Regex construction helpers -/

/-- A sequence of literal characters. -/
def lits (s : String) : Regex := s.data.foldr (fun c r => .cat (.lit c) r) .eps

/-- The `\d`. -/
def digitC : Regex :=
  .cls false ['0', '1', '2', '3', '4', '5', '6', '7', '8', '9']

/-- The `.` (Python dot does not match a newline). -/
def anyC : Regex := .cls true ['\n']

/-- The `r{n}`. -/
def repC (r : Regex) : Nat → Regex
  | 0 => .eps
  | n + 1 => .cat r (repC r n)

/-! ## Python exceptions -/

inductive PyErr where
  | valueError
  | typeError
  | indexError
  | keyError
  | nameError
  | attributeError
  /-- The `ParserError` from `builders.py`. -/
  | parserError
  /-- The `EmptyFileError` from `source/utils.py` (the spec calls it
  `EmptyDatasetError`). -/
  | emptyFileError
  /-- Failure raised by `validate_against_schema`. -/
  | schemaError
  /-- Any other exception surfacing from an external library (xarray, OS). -/
  | external (msg : String)
  deriving DecidableEq, Repr

deriving instance DecidableEq for Except

/-! ## `BaseBuilder.parse_filename` -/

abbrev Frequency := Nat × String

def TIMESTAMP_GROUP : String := "ts"

/-- The `FREQUENCIES` translation table of `builders.py`, in insertion
order (Python dicts iterate in insertion order; the first matching pattern
wins). -/
def FREQUENCIES : List (Regex × Frequency) :=
  [ (lits "daily", (1, "day"))
  , (.cat (lits "_dai") .endAnchor, (1, "day"))
  , (lits "month", (1, "mon"))
  , (.cat (lits "_mon") .endAnchor, (1, "mon"))
  , (lits "1mon", (1, "mon"))
  , (lits "yearly", (1, "yr"))
  , (lits "annual", (1, "yr"))
  , (.cat (lits "_ann") .endAnchor, (1, "yr")) ]

/-- The frequency-detection loop of `parse_filename`. -/
def searchFrequency (frequencies : List (Regex × Frequency)) (filename : List Char) :
    Option Frequency :=
  (frequencies.find? (fun pf => reSearch pf.1 filename)).map (fun pf => pf.2)

/-- The pattern loop of `parse_filename`: the first pattern whose `re.match`
succeeds, with its match data.  (`file_id` is still the raw filename at every
iteration: the loop breaks at the first match.) -/
def firstPatternMatch (patterns : List Regex) (s : List Char) :
    Option (Regex × MatchData) :=
  patterns.findSome? (fun p => (reMatchData p s).map (fun m => (p, m)))

/-- The `match.group(TIMESTAMP_GROUP)`: raises `IndexError` when the pattern has
no group named `ts`; yields `None` when the group did not participate. -/
def getTimestamp (m : MatchData) (orig : List Char) : Except PyErr (Option (List Char)) :=
  if TIMESTAMP_GROUP ∈ m.names then
    .ok ((m.caps.lookup TIMESTAMP_GROUP).map (fun sp => extractSpan orig sp.1 sp.2))
  else .error .indexError

/-- The redaction loop of `parse_filename`.  `orig` is the string the match
was made against (the raw filename); `match.group(grp)` always extracts from
it.  A redaction group present in the pattern but not participating in the
match makes `re.sub` receive `None` and raise `TypeError`. -/
def redactLoop (fill : Char) (orig : List Char) (m : MatchData) :
    List String → List Char → Except PyErr (List Char)
  | [], fid => .ok fid
  | g :: gs, fid =>
    if g ∈ m.names then
      match m.caps.lookup g with
      | some sp =>
        redactLoop fill orig m gs
          (splice fid sp.1 sp.2 (redactDigits fill (extractSpan orig sp.1 sp.2)))
      | none => .error .typeError
    else redactLoop fill orig m gs fid

/-- The `BaseBuilder.parse_filename`.  `redactionGroups` is the class attribute
`REDACTION_GROUPS` (`["ts"]` for the base class); `fill` is the
`redaction_fill` argument (a single character, default `'X'`). -/
def parseFilename (patterns : List Regex) (frequencies : List (Regex × Frequency))
    (redactionGroups : List String) (fill : Char) (filename : List Char) :
    Except PyErr (List Char × Option (List Char) × Option Frequency) :=
  let frequency := searchFrequency frequencies filename
  match firstPatternMatch patterns filename with
  | none => .ok (normalizeId filename, none, frequency)
  | some (_, m) => do
    let timestamp ← getTimestamp m filename
    let fid ← redactLoop fill filename m redactionGroups filename
    .ok (normalizeId fid, timestamp, frequency)

/-- The spec's worked example pattern from §8:
`^iceh.*\.(?P<ts>\d{4}-\d{2})$`. -/
def icehExamplePattern : Regex :=
  .cat (lits "iceh")
    (.cat (.star anyC)
      (.cat (.lit '.')
        (.cat (.group "ts" (.cat (repC digitC 4) (.cat (.lit '-') (repC digitC 2))))
          .endAnchor)))

def CapsValid (caps : Caps) (s : List Char) : Prop :=
  ∀ n a b, (n, (a, b)) ∈ caps → a ≤ b ∧ b ≤ s.length

/-- Position `i` of `out` holds the redacted image of position `i` of the
original filename. -/
def RedAt (fill : Char) (orig out : List Char) (i : Nat) : Prop :=
  out[i]? = (orig[i]?).map (redactChar fill)

/-- No two adjacent underscores. -/
def NoDUs (a b : Char) : Prop := ¬(a = '_' ∧ b = '_')

/-! ## Concrete builder patterns

Only the patterns a claim exercises are constructed; the others enter the
development through the universally quantified `patterns` argument of
`parseFilename`. -/

/-- The `[^\.]*`. -/
def notDotStar : Regex := .star (.cls true ['.'])

/-- The `[^/]*` (a numbered path-component group uses this). -/
def nonSlashStar : Regex := .star (.cls true ['/'])

/-- The `[^/]+`. -/
def nonSlashPlus : Regex := .cat (.cls true ['/']) (.star (.cls true ['/']))

/-- The `PATTERNS_HELPERS["ymd-ns"]`: `\d{4}\d{2}\d{2}`. -/
def ymdNs : Regex := repC digitC 8

/-- The `PATTERNS_HELPERS["mom6_added_timestamp"]`: `(\d{4}_\d{3})` — note the
helper itself carries a plain numbered group. -/
def mom6AddedTimestampHelper : Regex :=
  .group "3" (.cat (repC digitC 4) (.cat (.lit '_') (repC digitC 3)))

/-- The `PATTERNS_HELPERS["mom6_components"]`: `(?:ocean|ice)`. -/
def mom6Components : Regex := .alt (lits "ocean") (lits "ice")

/-- The `Mom6Builder.PATTERNS[0]` (daily snapshot naming):
`[^\.]*(?P<ts>\d{4}\d{2}\d{2})\.(?:ocean|ice).*(?P<mom6_added_timestamp>(\d{4}_\d{3})).*$`. -/
def mom6Pattern1 : Regex :=
  .cat notDotStar
    (.cat (.group TIMESTAMP_GROUP ymdNs)
      (.cat (.lit '.')
        (.cat mom6Components
          (.cat (.star anyC)
            (.cat (.group "mom6_added_timestamp" mom6AddedTimestampHelper)
              (.cat (.star anyC) .endAnchor))))))

/-- The `Mom6Builder.PATTERNS[1]` (basic naming):
`[^\.]*(?P<ts>\d{4}\d{2}\d{2})\.(?:ocean|ice).*$`. -/
def mom6Pattern2 : Regex :=
  .cat notDotStar
    (.cat (.group TIMESTAMP_GROUP ymdNs)
      (.cat (.lit '.') (.cat mom6Components (.cat (.star anyC) .endAnchor))))

/-- The `Mom6Builder.PATTERNS` (order matters: the snapshot pattern first). -/
def mom6Patterns : List Regex := [mom6Pattern1, mom6Pattern2]

/-- The `Mom6Builder.REDACTION_GROUPS`. -/
def mom6RedactionGroups : List String := [TIMESTAMP_GROUP, "mom6_added_timestamp"]

/-- The path regex of `AccessOm2Builder.parser`:
`.*/output\d+/([^/]*)/.*\.nc` (the single plain group is numbered `1`). -/
def om2PathPattern : Regex :=
  .cat (.star anyC)
    (.cat (.lit '/')
      (.cat (lits "output")
        (.cat digitC
          (.cat (.star digitC)
            (.cat (.lit '/')
              (.cat (.group "1" nonSlashStar)
                (.cat (.lit '/')
                  (.cat (.star anyC) (.cat (.lit '.') (lits "nc"))))))))))

/-- The path regex of `AccessEsm15Builder.parser`:
`.*/([^/]*)/history/([^/]*)/.*\.nc`. -/
def esm15PathPattern : Regex :=
  .cat (.star anyC)
    (.cat (.lit '/')
      (.cat (.group "1" nonSlashStar)
        (.cat (lits "/history/")
          (.cat (.group "2" nonSlashStar)
            (.cat (.lit '/')
              (.cat (.star anyC) (.cat (.lit '.') (lits "nc"))))))))

/-- The `[0]{0,2}`, greedy: two, then one, then zero. -/
def zeroPad02 : Regex := .alt (.cat (.lit '0') (.lit '0')) (.alt (.lit '0') .eps)

/-- Half of `PATTERNS_HELPERS["ymd00hm-2"]`: `\d{4}\d{2}\d{2}[0]{0,2}\d{4}`. -/
def ymd00hm2Half : Regex := .cat (repC digitC 8) (.cat zeroPad02 (repC digitC 4))

/-- The `[_,\-]`. -/
def sepCls : Regex := .cls false ['_', ',', '-']

/-- The `PATTERNS_HELPERS["ymd00hm-2"]`. -/
def ymd00hm2 : Regex := .cat ymd00hm2Half (.cat sepCls ymd00hm2Half)

/-- The `MopperBuilder.PATTERNS[0]`:
`^.*(?P<version>[^/]+)/(?P<frequency_dir>[^/]+)/(?P<variable_dir>[^/]+)/`
`(?P<variable>[^/]+)_(?P<model>[^/]+)_(?P<member>[^/]+)_(?P<frequency>[^/]+)_`
`(?P<ts>...)$` with the `ymd00hm-2` timestamp helper. -/
def mopperPattern : Regex :=
  .cat (.star anyC)
    (.cat (.group "version" nonSlashPlus)
      (.cat (.lit '/')
        (.cat (.group "frequency_dir" nonSlashPlus)
          (.cat (.lit '/')
            (.cat (.group "variable_dir" nonSlashPlus)
              (.cat (.lit '/')
                (.cat (.group "variable" nonSlashPlus)
                  (.cat (.lit '_')
                    (.cat (.group "model" nonSlashPlus)
                      (.cat (.lit '_')
                        (.cat (.group "member" nonSlashPlus)
                          (.cat (.lit '_')
                            (.cat (.group "frequency" nonSlashPlus)
                              (.cat (.lit '_')
                                (.cat (.group TIMESTAMP_GROUP ymd00hm2)
                                  .endAnchor)))))))))))))))

def mopperPatterns : List Regex := [mopperPattern]

/-- Pattern `^(?P<ts>\d)$` used to probe redaction with an arbitrary fill. -/
def tsDigitPattern : Regex := .cat (.group TIMESTAMP_GROUP digitC) .endAnchor

/-- Pattern `^(?P<ts>\d)-\d$`. -/
def c4PatternA : Regex :=
  .cat (.group TIMESTAMP_GROUP digitC) (.cat (.lit '-') (.cat digitC .endAnchor))

/-- Pattern `^X_(?P<ts>\d)$`. -/
def c4PatternB : Regex :=
  .cat (.lit 'X') (.cat (.lit '_') (.cat (.group TIMESTAMP_GROUP digitC) .endAnchor))

/-! ## Python dict values, asset records and the invalid-asset sentinel -/

inductive PyVal where
  | vStr (s : List Char)
  | vStrList (l : List (List Char))
  | vNone
  deriving DecidableEq, Repr

/-- An asset-record dict (ordered key/value pairs, as Python dicts are). -/
abbrev Dict := List (String × PyVal)

/-- Sentinel key constant imported from the external `ecgtools.builder`. -/
def INVALID_ASSET : String := "INVALID_ASSET"

/-- Traceback key constant imported from the external `ecgtools.builder`. -/
def TRACEBACK : String := "TRACEBACK"

/-- Rendering of `traceback.format_exc()` for a raised exception. -/
def PyErr.tbText : PyErr → List Char
  | .valueError => "ValueError".data
  | .typeError => "TypeError".data
  | .indexError => "IndexError".data
  | .keyError => "KeyError".data
  | .nameError => "NameError".data
  | .attributeError => "AttributeError".data
  | .parserError => "ParserError".data
  | .emptyFileError => "EmptyFileError".data
  | .schemaError => "SchemaError".data
  | .external m => m.data

/-- The invalid-asset sentinel `{INVALID_ASSET: file, TRACEBACK: traceback.format_exc()}`. -/
def sentinelDict (file : List Char) (e : PyErr) : Dict :=
  [(INVALID_ASSET, .vStr file), (TRACEBACK, .vStr e.tbText)]

def dictHasKey (d : Dict) (k : String) : Bool := d.any (fun kv => kv.1 == k)

/-- Python `d[k]` (raises `KeyError` when absent). -/
def dictGet (d : Dict) (k : String) : Except PyErr PyVal :=
  match d.lookup k with
  | some v => .ok v
  | none => .error .keyError

/-- Python `d[k] = v`: replace in place, or append preserving insertion order. -/
def dictSet (d : Dict) (k : String) (v : PyVal) : Dict :=
  if dictHasKey d k then d.map (fun kv => if kv.1 == k then (k, v) else kv)
  else d ++ [(k, v)]

/-- Python `needle in hay` on strings. -/
def startsWith : List Char → List Char → Bool
  | _, [] => true
  | [], _ :: _ => false
  | h :: hs, n :: ns => h == n && startsWith hs ns

def strContains (hay needle : List Char) : Bool :=
  (List.range (hay.length + 1)).any (fun p => startsWith (hay.drop p) needle)

/-! ## Paths and filenames -/

def splitOnChar (c : Char) : List Char → List (List Char)
  | [] => [[]]
  | a :: t =>
    let r := splitOnChar c t
    if a = c then [] :: r
    else
      match r with
      | [] => [[a]]
      | h :: t' => (a :: h) :: t'

/-- The final path component. -/
def lastComponent (p : List Char) : List Char := (splitOnChar '/' p).getLastD []

def lastDotIdx (name : List Char) : Option Nat :=
  ((List.range name.length).filter (fun i => name[i]? == some '.')).getLast?

/-- A file name without its last extension (as `os.path.splitext` computes it:
a leading dot starts no extension). -/
def stemOfName (name : List Char) : List Char :=
  match lastDotIdx name with
  | some j => if j = 0 then name else name.take j
  | none => name

/-- The `pathlib.Path(file).stem`. -/
def pathStem (p : List Char) : List Char := stemOfName (lastComponent p)

def joinSlash : List (List Char) → List Char
  | [] => []
  | [x] => x
  | x :: xs => x ++ '/' :: joinSlash xs

/-- The `MopperBuilder._get_relevant_filepath`:
`os.path.splitext(os.path.join(*str(path).split(os.path.sep)[-4:]))[0]`. -/
def mopperRelevantFilepath (p : List Char) : List Char :=
  let parts := splitOnChar '/' p
  let joined := joinSlash (parts.drop (parts.length - 4))
  let name := lastComponent joined
  joined.take (joined.length - name.length) ++ stemOfName name

/-! ## Datasets, variable info and asset records -/

/-- Attribute dict of one netCDF variable (values modelled as text). -/
abbrev AttrList := List (String × List Char)

/-- A netCDF dataset as exposed by `xr.open_dataset`: the ordered variables
with their attributes, and the global attributes. -/
structure DataSet where
  dsVars : List (List Char × AttrList)
  attrs : AttrList
  deriving DecidableEq, Repr

def attrOr (attrs : AttrList) (k : String) (dflt : List Char) : List Char :=
  match attrs.lookup k with
  | some v => v
  | none => dflt

def hasLongName (attrs : AttrList) : Bool := (attrs.lookup "long_name").isSome

/-- Modelled from the spec: `_VarInfo` lives in `source/utils.py`, which is
not under `src/`.  Per spec §3 and §4.2 a variable is catalog-eligible exactly
when its attributes carry `long_name`; absent `standard_name`, `units` and
`cell_methods` default to the empty string. -/
structure VarInfo where
  variable_list : List (List Char)
  long_name_list : List (List Char)
  standard_name_list : List (List Char)
  units_list : List (List Char)
  cell_methods_list : List (List Char)
  deriving DecidableEq, Repr

def emptyVarInfo : VarInfo := ⟨[], [], [], [], []⟩

/-- Modelled from the spec: `_VarInfo.append_attrs` records a variable iff its
attributes carry `long_name`. -/
def VarInfo.appendAttrs (vi : VarInfo) (name : List Char) (attrs : AttrList) : VarInfo :=
  match attrs.lookup "long_name" with
  | some ln =>
    ⟨ vi.variable_list ++ [name]
    , vi.long_name_list ++ [ln]
    , vi.standard_name_list ++ [attrOr attrs "standard_name" []]
    , vi.units_list ++ [attrOr attrs "units" []]
    , vi.cell_methods_list ++ [attrOr attrs "cell_methods" []] ⟩
  | none => vi

/-- Modelled from the spec where `builders.py` leaves the field types to
`source/utils.py`: the `_NCFileInfo` dataclass with the fields `builders.py`
constructs.  The Python field names `variable`, `variable_long_name`, ... are
spelled in camel case because `variable` is a Lean keyword; `toDict` keeps the
exact Python keys. -/
structure NCFileInfo where
  filename : List Char
  path : List Char
  file_id : List Char
  filename_timestamp : Option (List Char)
  frequency : List Char
  start_date : List Char
  end_date : List Char
  variableList : List (List Char)
  variableLongName : List (List Char)
  variableStandardName : List (List Char)
  variableUnits : List (List Char)
  variableCellMethods : List (List Char)
  deriving DecidableEq, Repr

/-- Modelled from the spec: `_NCFileInfo.to_dict` renders the dataclass as the
asset-record dict keyed by field name. -/
def NCFileInfo.toDict (i : NCFileInfo) : Dict :=
  [ ("filename", .vStr i.filename)
  , ("path", .vStr i.path)
  , ("file_id", .vStr i.file_id)
  , ("filename_timestamp",
      match i.filename_timestamp with | some t => .vStr t | none => .vNone)
  , ("frequency", .vStr i.frequency)
  , ("start_date", .vStr i.start_date)
  , ("end_date", .vStr i.end_date)
  , ("variable", .vStrList i.variableList)
  , ("variable_long_name", .vStrList i.variableLongName)
  , ("variable_standard_name", .vStrList i.variableStandardName)
  , ("variable_units", .vStrList i.variableUnits)
  , ("variable_cell_methods", .vStrList i.variableCellMethods) ]

/-- The pluggable time-resolution strategy (`TIME_PARSER`): from the open
dataset, the filename frequency hint and the time dimension name to
`(start_date, end_date, frequency)`; external to `builders.py`. -/
abbrev TimeParser :=
  DataSet → Option Frequency → String → Except PyErr (List Char × List Char × List Char)

/-- The `BaseBuilder.parse_ncfile`.  `xr.open_dataset` is abstracted as the
`openDs` outcome; the time parser is the oracle described at `TimeParser`.
Statement order follows the source: `parse_filename` on the stem, open the
dataset, collect variable attributes, resolve time (inside the `with` block),
and only then raise `EmptyFileError` when no variable was recorded. -/
def baseParseNcfile (patterns : List Regex) (redactionGroups : List String)
    (timeParser : TimeParser) (openDs : Except PyErr DataSet)
    (file : List Char) (timeDim : String) : Except PyErr NCFileInfo := do
  let pf ← parseFilename patterns FREQUENCIES redactionGroups 'X' (pathStem file)
  let ds ← openDs
  let dvars := ds.dsVars.foldl (fun acc nv => acc.appendAttrs nv.1 nv.2) emptyVarInfo
  let td ← timeParser ds pf.2.2 timeDim
  if dvars.variable_list.isEmpty then .error .emptyFileError
  else
    .ok
      { filename := lastComponent file
      , path := file
      , file_id := pf.1
      , filename_timestamp := pf.2.1
      , frequency := td.2.2
      , start_date := td.1
      , end_date := td.2.1
      , variableList := dvars.variable_list
      , variableLongName := dvars.long_name_list
      , variableStandardName := dvars.standard_name_list
      , variableUnits := dvars.units_list
      , variableCellMethods := dvars.cell_methods_list }


/-! ## Concrete per-builder parsers

The call `cls.parse_ncfile(file)` is a class-method boundary and enters each
parser as the `parseNc` argument; every other statement of the Python parser
bodies is embedded directly.  `pyTry` is the blanket
`try: ... except Exception: return {INVALID_ASSET: file, TRACEBACK: ...}`
wrapper shared by the four wrapped parsers. -/

def pyTry (body : Except PyErr Dict) (file : List Char) : Except PyErr Dict :=
  match body with
  | .ok d => .ok d
  | .error e => .ok (sentinelDict file e)

/-- The `AccessOm2Builder.parser`.  When the path regex does not match, the local
`realm` is never assigned, and `if realm == "ice"` raises
`UnboundLocalError` (a `NameError`), caught by the blanket `except`. -/
def accessOm2Parser (parseNc : List Char → Except PyErr NCFileInfo)
    (file : List Char) : Except PyErr Dict :=
  pyTry (do
    let realmBound : Option PyVal :=
      match reMatch om2PathPattern file with
      | some caps =>
        some
          (match caps.lookup "1" with
           | some sp => .vStr (extractSpan file sp.1 sp.2)
           | none => .vNone)
      | none => none
    let realm0 ← match realmBound with
      | none => Except.error PyErr.nameError
      | some v => pure v
    let realm := if realm0 = .vStr "ice".data then PyVal.vStr "seaIce".data else realm0
    let info ← parseNc file
    pure (dictSet info.toDict "realm" realm)) file

/-- The `AccessOm3Builder.parser`. -/
def accessOm3Parser (parseNc : List Char → Except PyErr NCFileInfo)
    (file : List Char) : Except PyErr Dict :=
  pyTry (do
    let info ← parseNc file
    let d := info.toDict
    let fnameV ← dictGet d "filename"
    let fname ← match fnameV with
      | .vStr s => pure s
      | _ => Except.error PyErr.typeError
    let realm ←
      if strContains fname "mom6".data then pure "ocean".data
      else if strContains fname "ww3".data then pure "wave".data
      else if strContains fname "cice".data then pure "seaIce".data
      else Except.error PyErr.parserError
    pure (dictSet d "realm" (.vStr realm))) file

/-- The `Mom6Builder.parser`. -/
def mom6Parser (parseNc : List Char → Except PyErr NCFileInfo)
    (file : List Char) : Except PyErr Dict :=
  pyTry (do
    let info ← parseNc file
    let d := info.toDict
    let fnameV ← dictGet d "filename"
    let fname ← match fnameV with
      | .vStr s => pure s
      | _ => Except.error PyErr.typeError
    let realm ←
      if strContains fname "ocean".data then pure "ocean".data
      else if strContains fname "ice".data then pure "seaIce".data
      else Except.error PyErr.parserError
    pure (dictSet d "realm" (.vStr realm))) file

/-- Python `re.sub(needle, "", s)` where `needle` is a plain experiment
identifier (no regex metacharacters in practice): drop every occurrence,
scanning left to right. -/
def removeAllFuel : Nat → List Char → List Char → List Char
  | 0, s, _ => s
  | _ + 1, [], _ => []
  | fuel + 1, a :: t, needle =>
    if needle.isEmpty then a :: t
    else if startsWith (a :: t) needle then
      removeAllFuel fuel ((a :: t).drop needle.length) needle
    else a :: removeAllFuel fuel t needle

def removeAll (s needle : List Char) : List Char := removeAllFuel s.length s needle

/-- The `AccessEsm15Builder.parser`.  A non-matching path makes `re.match` return
`None`, and `.groups()` on `None` raises `AttributeError` (caught by the
blanket `except`). -/
def accessEsm15Parser (parseNc : List Char → Except PyErr NCFileInfo)
    (file : List Char) : Except PyErr Dict :=
  pyTry (do
    let caps ← match reMatch esm15PathPattern file with
      | none => Except.error PyErr.attributeError
      | some caps => pure caps
    let expId : Option (List Char) :=
      (caps.lookup "1").map (fun sp => extractSpan file sp.1 sp.2)
    let realmKey : Option (List Char) :=
      (caps.lookup "2").map (fun sp => extractSpan file sp.1 sp.2)
    let realm ← match realmKey with
      | some r =>
        if r = "atm".data then pure "atmos".data
        else if r = "ocn".data then pure "ocean".data
        else if r = "ice".data then pure "seaIce".data
        else Except.error PyErr.keyError
      | none => Except.error PyErr.keyError
    let info ← parseNc file
    let d := info.toDict
    let fidV ← dictGet d "file_id"
    let fid ← match fidV with
      | .vStr s => pure s
      | _ => Except.error PyErr.typeError
    let expIdStr ← match expId with
      | some s => pure s
      | none => Except.error PyErr.typeError
    let d := dictSet d "file_id" (.vStr (stripU (removeAll fid expIdStr)))
    let d := dictSet d "realm" (.vStr realm)
    pure (dictSet d "member" (.vStr expIdStr))) file

/-! ## `MopperBuilder` -/

/-- Extra arguments threaded through `MopperBuilder.parse_ncfile`. -/
abbrev ExArgs := List (String × List Char)

/-- The `MopperBuilder.parse_ncfile`.  `datetime.strptime`/`strftime` are external
and enter as the `cmorTime` oracle (from truncated cmor format and date text
to the reformatted date, or the `ValueError` Python would raise).  The method
returns the pair `(output_nc_info, exargs)` — a Python tuple. -/
def mopperParseNcfile (cmorTime : List Char → List Char → Except PyErr (List Char))
    (openDs : Except PyErr DataSet) (fpath : List Char) (exargs : ExArgs) :
    Except PyErr (NCFileInfo × ExArgs) := do
  let dformat := "%Y%m%d%H%M%S".data
  let dateRange := ((exargs.lookup "date_range").getD [])
  let se ←
    if dateRange.isEmpty then pure ("none".data, "none".data)
    else
      match splitOnChar '-' dateRange with
      | [ts0, te0] => do
        let cmorFormat := dformat.take (ts0.length - 2)
        let sd ← cmorTime cmorFormat ts0
        let ed ← cmorTime cmorFormat te0
        pure (sd, ed)
      | _ => Except.error PyErr.valueError
  let varName := (exargs.lookup "variable").getD []
  let ds ← openDs
  let attrs ← match ds.dsVars.lookup varName with
    | some a => pure a
    | none => Except.error PyErr.keyError
  let longName := attrOr attrs "long_name" "unknown".data
  let stdName := attrOr attrs "standard_name" "unknown".data
  let cellMethods := attrOr attrs "cell_methods" "unknown".data
  let units := attrOr attrs "units" "unknown".data
  let trackingId := attrOr ds.attrs "tracking_id" "unknown".data
  pure
    ( { filename := lastComponent fpath
      , path := fpath
      , file_id := trackingId
      , filename_timestamp := some dateRange
      , frequency := (exargs.lookup "frequency").getD []
      , start_date := se.1
      , end_date := se.2
      , variableList := [varName]
      , variableLongName := [longName]
      , variableStandardName := [stdName]
      , variableUnits := [units]
      , variableCellMethods := [cellMethods] }
    , exargs )

/-- A Python object on which `.to_dict()` is invoked: attribute dispatch.
`_NCFileInfo` instances have the method; tuples do not, so the call raises
`AttributeError`. -/
inductive PyObj where
  | ncInfo (i : NCFileInfo)
  | tupInfoArgs (i : NCFileInfo) (ex : ExArgs)
  deriving DecidableEq, Repr

def PyObj.toDict : PyObj → Except PyErr Dict
  | .ncInfo i => .ok i.toDict
  | .tupInfoArgs _ _ => .error .attributeError

/-- The `MopperBuilder.parser`.  NOTE the structure of the source: there is no
try/except wrapper, and `ncinfo = cls.parse_ncfile(fpath)` binds the returned
tuple, on which `.to_dict()` is immediately invoked.  The continuation after
that call is embedded for completeness; `match.get(k, None)` does not exist on
`re.Match` objects and would itself raise `AttributeError`. -/
def mopperParser (cmorTime : List Char → List Char → Except PyErr (List Char))
    (openDs : Except PyErr DataSet) (fpath : List Char)
    (toSelect : Option (List String)) : Except PyErr Dict := do
  let toSel := toSelect.getD []
  let pair ← mopperParseNcfile cmorTime openDs fpath []
  let d ← (PyObj.tupInfoArgs pair.1 pair.2).toDict
  let pathV ← dictGet d "path"
  let rel ← match pathV with
    | .vStr s => pure (mopperRelevantFilepath s)
    | _ => Except.error PyErr.typeError
  let d2 ← match firstPatternMatch mopperPatterns rel with
    | some _ =>
      if toSel.all (fun k => dictHasKey d k) then pure d
      else Except.error PyErr.attributeError
    | none => pure d
  pure (if dictHasKey d2 "realm" then d2 else dictSet d2 "realm" (.vStr "unknown".data))

/-! ## `BaseBuilder.validate_parser`, `BaseBuilder.save` -/

/-- The loop of `validate_parser`: skip invalid-asset sentinels; validate the
first successful record against the schema (a schema failure propagates) and
stop; raise `ParserError` when every asset produced a sentinel. -/
def validateParserLoop (parser : List Char → Except PyErr Dict)
    (schema : Dict → Except PyErr Unit) : List (List Char) → Except PyErr Unit
  | [] => .error .parserError
  | a :: rest => do
    let info ← parser a
    if dictHasKey info INVALID_ASSET then validateParserLoop parser schema rest
    else schema info

/-- The `BaseBuilder.validate_parser`.  `validate_against_schema` is external and
enters as `schema`. -/
def validateParser (parser : List Char → Except PyErr Dict)
    (schema : Dict → Except PyErr Unit) (assets : List (List Char)) :
    Except PyErr Unit :=
  if assets.isEmpty then .error .valueError
  else validateParserLoop parser schema assets

/-- The first record of the asset list that parses without an invalid-asset
sentinel (defined for parsers that do not raise). -/
def firstValidRecord (parser : List Char → Except PyErr Dict) :
    List (List Char) → Option Dict
  | [] => none
  | a :: rest =>
    match parser a with
    | .ok d => if dictHasKey d INVALID_ASSET then firstValidRecord parser rest else some d
    | .error _ => none

/-- Modelled from the spec: the column-name constants live in
`access_nri_intake/source/__init__.py`, which is not under `src/`; their
values are irrelevant to the claims. -/
def PATH_COLUMN : String := "path"

/-- Modelled from the spec: see `PATH_COLUMN`. -/
def VARIABLE_COLUMN : String := "variable"

/-- One aggregation rule as hard-coded in the builder constructors. -/
inductive AggRule where
  | joinExisting (attributeName dim combine : String)
  | joinNew (attributeName : String)
  deriving DecidableEq, Repr

/-- The in-memory state `save` reads: the parsed/cleaned table and the
constructor-fixed configuration forwarded to `_save`. -/
structure BuilderState where
  df : List Dict
  dataFormat : String
  groupbyAttrs : Option (List String)
  aggregations : List AggRule
  deriving DecidableEq, Repr

/-- The sidecar metadata `_save` hands to the external
`ecgtools.Builder.save` (fixed kwargs from `builders.py`). -/
structure Artifact where
  name : String
  pathColumnName : String
  variableColumnName : String
  dataFormat : String
  groupbyAttrs : Option (List String)
  aggregations : List AggRule
  esmcatVersion : String
  description : String
  directory : Option String
  catalogType : String
  csvCompression : String
  deriving DecidableEq, Repr

/-- The `BaseBuilder._save`: the external persist call with its fixed kwargs. -/
def builderSaveCall (b : BuilderState) (name description : String)
    (directory : Option String) : Artifact :=
  { name := name
  , pathColumnName := PATH_COLUMN
  , variableColumnName := VARIABLE_COLUMN
  , dataFormat := b.dataFormat
  , groupbyAttrs := b.groupbyAttrs
  , aggregations := b.aggregations
  , esmcatVersion := "0.0.1"
  , description := description
  , directory := directory
  , catalogType := "file"
  , csvCompression := "gzip" }

/-- The `BaseBuilder.save`: raise `ValueError` on an empty table, otherwise
persist via `_save`.  The method never mutates the builder state, so the
returned state equals the input state on every path. -/
def builderSave (b : BuilderState) (name description : String)
    (directory : Option String) : BuilderState × Except PyErr Artifact :=
  if b.df.isEmpty then (b, .error .valueError)
  else (b, .ok (builderSaveCall b name description directory))

/-! ## The catalog version registry -/

/-- Python string comparison (lexicographic by code point) on version
stamps. -/
def verLtB : List Char → List Char → Bool
  | [], [] => false
  | [], _ :: _ => true
  | _ :: _, [] => false
  | a :: as, b :: bs => decide (a < b) || (decide (a = b) && verLtB as bs)

/-- Python `min` over two version stamps. -/
def verMin (a b : List Char) : List Char := if verLtB b a then b else a

/-- Python `max` over two version stamps. -/
def verMax (a b : List Char) : List Char := if verLtB a b then b else a

/-- Python `a <= b` on version stamps. -/
def verLeB (a b : List Char) : Bool := !(verLtB b a)

structure VersionRegistry where
  minV : List Char
  maxV : List Char
  defaultV : List Char
  deriving DecidableEq, Repr

/-- Modelled from the spec: the catalog version reconciler
(`access_nri_intake.cli.build`) is not under `src/`; only its tests are.
Pointer update per spec §4.4 steps 1-3 on a build stamped `v`:
`min = min(min0, v)` and `max = max(max0, v)` over version-stamp strings
(`min0`/`max0` from the prior registry or storage scan; a fresh registry
starts at `v`).  The spec says `default = max`, but the repository tests pin
`default` to the newly built stamp (`src/tests/test_cli.py`,
`test_build_existing_data`: "Default should always be the newly-built
version", asserted even when an existing version directory is later than
`v`); the model follows the tests. -/
def updateRegistry (prior : Option (List Char × List Char)) (v : List Char) :
    VersionRegistry :=
  match prior with
  | none => ⟨v, v, v⟩
  | some (mn, mx) => ⟨verMin mn v, verMax mx v, v⟩

/-! ## Span validity of the matcher

Every span captured by `reMatch` lies within the input string.  This mirrors
the guarantee Python gives for `match.start(g)`/`match.end(g)`. -/

theorem capsValid_nil (s : List Char) : CapsValid [] s := by
  intro n a b h; cases h

theorem mrun_caps_valid :
    ∀ (fuel : Nat) (r : Regex) (s : List Char) (pos : Nat) (caps : Caps)
      (k : Nat → Caps → Option (Nat × Caps)),
      pos ≤ s.length → CapsValid caps s →
      (∀ p c, pos ≤ p → p ≤ s.length → CapsValid c s →
        ∀ res, k p c = some res → CapsValid res.2 s) →
      ∀ res, mrun fuel r s pos caps k = some res → CapsValid res.2 s := by
  intro fuel
  induction fuel with
  | zero =>
    intro r s pos caps k _ _ _ res h
    simp [mrun] at h
  | succ fuel ih =>
    intro r s pos caps k hpos hcaps hk res h
    cases r with
    | eps =>
      exact hk pos caps le_rfl hpos hcaps res h
    | lit c0 =>
      simp only [mrun] at h
      split at h
      case h_2 => cases h
      case h_1 c hc =>
        split at h
        · have hlt : pos < s.length := by
            rcases List.getElem?_eq_some.mp hc with ⟨hl, _⟩
            exact hl
          exact hk (pos + 1) caps (Nat.le_succ pos) hlt hcaps res h
        · cases h
    | cls neg cs =>
      simp only [mrun] at h
      split at h
      case h_2 => cases h
      case h_1 c hc =>
        split at h
        · have hlt : pos < s.length := by
            rcases List.getElem?_eq_some.mp hc with ⟨hl, _⟩
            exact hl
          exact hk (pos + 1) caps (Nat.le_succ pos) hlt hcaps res h
        · cases h
    | cat r1 r2 =>
      simp only [mrun] at h
      refine ih r1 s pos caps _ hpos hcaps ?_ res h
      intro p c hp hple hc res' h'
      refine ih r2 s p c k hple hc ?_ res' h'
      intro q c' hq hqle hc' res'' h''
      exact hk q c' (le_trans hp hq) hqle hc' res'' h''
    | alt r1 r2 =>
      simp only [mrun] at h
      cases h1 : mrun fuel r1 s pos caps k with
      | some res1 =>
        rw [h1] at h
        cases h
        exact ih r1 s pos caps k hpos hcaps hk res h1
      | none =>
        rw [h1] at h
        exact ih r2 s pos caps k hpos hcaps hk res h
    | star r1 =>
      simp only [mrun] at h
      cases h1 : mrun fuel r1 s pos caps
          (fun p c => if p = pos then none else mrun fuel (.star r1) s p c k) with
      | some res1 =>
        rw [h1] at h
        cases h
        refine ih r1 s pos caps _ hpos hcaps ?_ res h1
        intro p c hp hple hc res' h'
        by_cases hpp : p = pos
        · rw [if_pos hpp] at h'; cases h'
        · rw [if_neg hpp] at h'
          refine ih (.star r1) s p c k hple hc ?_ res' h'
          intro q c' hq hqle hc' res'' h''
          exact hk q c' (le_trans hp hq) hqle hc' res'' h''
      | none =>
        rw [h1] at h
        exact hk pos caps le_rfl hpos hcaps res h
    | group n r1 =>
      simp only [mrun] at h
      refine ih r1 s pos caps _ hpos hcaps ?_ res h
      intro p c hp hple hc res' h'
      refine hk p ((n, (pos, p)) :: c) hp hple ?_ res' h'
      intro n' a b hmem
      rcases List.mem_cons.mp hmem with heq | hmem'
      · cases heq
        exact ⟨hp, hple⟩
      · exact hc n' a b hmem'
    | endAnchor =>
      simp only [mrun] at h
      by_cases hpp : pos = s.length
      · rw [if_pos hpp] at h
        exact hk pos caps le_rfl hpos hcaps res h
      · rw [if_neg hpp] at h; cases h

theorem reMatch_caps_valid (r : Regex) (s : List Char) (caps : Caps)
    (h : reMatch r s = some caps) : CapsValid caps s := by
  unfold reMatch at h
  cases hm : mrun matchFuel r s 0 [] (fun p c => some (p, c)) with
  | none => rw [hm] at h; cases h
  | some res =>
    rw [hm] at h
    cases h
    refine mrun_caps_valid matchFuel r s 0 [] _ (Nat.zero_le _) (capsValid_nil s)
      ?_ res hm
    intro p c _ _ hc res' h'
    cases h'
    exact hc

/-! ## The redaction loop: length preservation and span redaction -/

theorem redactDigits_length (fill : Char) (l : List Char) :
    (redactDigits fill l).length = l.length := by
  simp [redactDigits]

theorem extractSpan_length (s : List Char) (a b : Nat) (hb : b ≤ s.length) :
    (extractSpan s a b).length = b - a := by
  simp [extractSpan, List.length_take]
  omega

theorem splice_length (s r : List Char) (a b : Nat) (hab : a ≤ b) (hb : b ≤ s.length)
    (hr : r.length = b - a) : (splice s a b r).length = s.length := by
  simp [splice, List.length_take, hr]
  omega

theorem splice_getElem?_lt (s r : List Char) (a b i : Nat) (hia : i < a)
    (ha : a ≤ s.length) : (splice s a b r)[i]? = s[i]? := by
  have h1 : i < (s.take a).length := by
    simp [List.length_take]
    omega
  have h2 : i < (s.take a ++ r).length := by
    simp [List.length_take]
    omega
  unfold splice
  rw [List.getElem?_append_left h2, List.getElem?_append_left h1,
    List.getElem?_take_of_lt hia]

theorem splice_getElem?_mid (s r : List Char) (a b i : Nat) (hai : a ≤ i)
    (hir : i < a + r.length) (ha : a ≤ s.length) :
    (splice s a b r)[i]? = r[i - a]? := by
  have hlen : (s.take a).length = a := by
    simp [List.length_take]
    omega
  have h2 : i < (s.take a ++ r).length := by
    simp [List.length_take]
    omega
  have h1 : (s.take a).length ≤ i := by
    rw [hlen]
    exact hai
  unfold splice
  rw [List.getElem?_append_left h2, List.getElem?_append_right h1, hlen]

theorem splice_getElem?_ge (s r : List Char) (a b i : Nat) (hbi : b ≤ i)
    (hab : a ≤ b) (hb : b ≤ s.length) (hr : r.length = b - a) :
    (splice s a b r)[i]? = s[i]? := by
  have h2 : (s.take a ++ r).length ≤ i := by
    simp [List.length_take, hr]
    omega
  unfold splice
  rw [List.getElem?_append_right h2, List.getElem?_drop]
  congr 1
  simp [List.length_take, hr]
  omega

theorem redactDigits_getElem? (fill : Char) (l : List Char) (i : Nat) :
    (redactDigits fill l)[i]? = (l[i]?).map (redactChar fill) := by
  simp [redactDigits]

theorem extractSpan_getElem? (s : List Char) (a b i : Nat) (hib : a + i < b) :
    (extractSpan s a b)[i]? = s[a + i]? := by
  unfold extractSpan
  rw [List.getElem?_drop, List.getElem?_take_of_lt hib]

/-- Inside the spliced region, every position holds the redacted image of the
original filename at the same index. -/
theorem splice_redAt_mid (s orig : List Char) (fill : Char) (a b i : Nat)
    (hs : s.length = orig.length) (hai : a ≤ i) (hib : i < b) (hb : b ≤ orig.length) :
    RedAt fill orig (splice s a b (redactDigits fill (extractSpan orig a b))) i := by
  have hr : (redactDigits fill (extractSpan orig a b)).length = b - a := by
    rw [redactDigits_length, extractSpan_length orig a b hb]
  unfold RedAt
  rw [splice_getElem?_mid]
  · rw [redactDigits_getElem?, extractSpan_getElem?]
    · congr 2
      omega
    · omega
  · exact hai
  · omega
  · omega

/-- Outside or inside the spliced region, a position already holding the
redacted image keeps holding it. -/
theorem splice_redAt_preserved (s orig : List Char) (fill : Char) (a b i : Nat)
    (hs : s.length = orig.length) (hab : a ≤ b) (hb : b ≤ orig.length)
    (hred : RedAt fill orig s i) :
    RedAt fill orig (splice s a b (redactDigits fill (extractSpan orig a b))) i := by
  have hr : (redactDigits fill (extractSpan orig a b)).length = b - a := by
    rw [redactDigits_length, extractSpan_length orig a b hb]
  rcases lt_or_le i a with hia | hai
  · unfold RedAt
    rw [splice_getElem?_lt s _ a b i hia (by omega)]
    exact hred
  · rcases lt_or_le i b with hib | hbi
    · exact splice_redAt_mid s orig fill a b i hs hai hib hb
    · unfold RedAt
      rw [splice_getElem?_ge s _ a b i hbi hab (by omega) hr]
      exact hred

/-- Spans looked up from the captures of a valid match are valid. -/
theorem lookup_mem_caps (caps : Caps) (g : String) (sp : Nat × Nat)
    (h : caps.lookup g = some sp) : (g, sp) ∈ caps := by
  induction caps with
  | nil => cases h
  | cons hd tl ih =>
    rcases hd with ⟨n, v⟩
    simp only [List.lookup] at h
    split at h
    · cases h
      rename_i heq
      have hg : g = n := eq_of_beq heq
      subst hg
      exact List.mem_cons_self _ _
    · exact List.mem_cons_of_mem (n, v) (ih h)

/-- Master specification of the redaction loop: with a single-character fill
the working string keeps the length of the original filename, positions
already holding redacted content keep holding it, and every processed
participating redaction group's span ends up holding the redacted image of
the original filename at the same indices. -/
theorem redactLoop_spec (fill : Char) (orig : List Char) (m : MatchData)
    (hcv : CapsValid m.caps orig) :
    ∀ (gs : List String) (fid out : List Char), fid.length = orig.length →
      redactLoop fill orig m gs fid = .ok out →
      out.length = orig.length ∧
      (∀ i, RedAt fill orig fid i → RedAt fill orig out i) ∧
      (∀ g, g ∈ gs → g ∈ m.names → ∀ a b, m.caps.lookup g = some (a, b) →
        ∀ i, a ≤ i → i < b → RedAt fill orig out i) := by
  intro gs
  induction gs with
  | nil =>
    intro fid out hlen h
    simp only [redactLoop] at h
    cases h
    refine ⟨hlen, fun i hi => hi, ?_⟩
    intro g hg
    exact absurd hg (List.not_mem_nil g)
  | cons g gs ih =>
    intro fid out hlen h
    simp only [redactLoop] at h
    by_cases hgn : g ∈ m.names
    · rw [if_pos hgn] at h
      cases hsp : m.caps.lookup g with
      | none =>
        rw [hsp] at h
        cases h
      | some sp =>
        rw [hsp] at h
        rcases sp with ⟨a, b⟩
        have hab : a ≤ b ∧ b ≤ orig.length := hcv g a b (lookup_mem_caps _ _ _ hsp)
        have hr : (redactDigits fill (extractSpan orig a b)).length = b - a := by
          rw [redactDigits_length, extractSpan_length orig a b hab.2]
        have hlen' :
            (splice fid a b (redactDigits fill (extractSpan orig a b))).length =
              orig.length := by
          rw [splice_length fid _ a b hab.1 (by omega) hr, hlen]
        rcases ih _ out hlen' h with ⟨hl, hpres, hrest⟩
        refine ⟨hl, ?_, ?_⟩
        · intro i hi
          exact hpres i (splice_redAt_preserved fid orig fill a b i hlen hab.1 hab.2 hi)
        · intro g' hg' hgn' a' b' hsp' i hai hib
          rcases List.mem_cons.mp hg' with heq | hmem
          · subst heq
            rw [hsp] at hsp'
            injection hsp' with hpair
            injection hpair with ha hb
            subst ha
            subst hb
            exact hpres i (splice_redAt_mid fid orig fill a b i hlen hai hib hab.2)
          · exact hrest g' hmem hgn' a' b' hsp' i hai hib
    · rw [if_neg hgn] at h
      rcases ih fid out hlen h with ⟨hl, hpres, hrest⟩
      refine ⟨hl, hpres, ?_⟩
      intro g' hg' hgn' a' b' hsp' i hai hib
      rcases List.mem_cons.mp hg' with heq | hmem
      · subst heq
        exact absurd hgn' hgn
      · exact hrest g' hmem hgn' a' b' hsp' i hai hib

/-- The first matching pattern's match data comes from `reMatch`, so its
captured spans are valid for the matched string. -/
theorem firstPatternMatch_reMatch (patterns : List Regex) (s : List Char)
    (p : Regex) (m : MatchData) (h : firstPatternMatch patterns s = some (p, m)) :
    reMatch p s = some m.caps := by
  unfold firstPatternMatch at h
  rcases List.exists_of_findSome?_eq_some h with ⟨q, hq, hsome⟩
  unfold reMatchData at hsome
  cases hm : reMatch q s with
  | none => rw [hm] at hsome; cases hsome
  | some caps =>
    rw [hm] at hsome
    simp only [Option.map_some'] at hsome
    cases hsome
    exact hm

theorem firstPatternMatch_caps_valid (patterns : List Regex) (s : List Char)
    (p : Regex) (m : MatchData) (h : firstPatternMatch patterns s = some (p, m)) :
    CapsValid m.caps s :=
  reMatch_caps_valid p s m.caps (firstPatternMatch_reMatch patterns s p m h)

/-! ## Idempotence of the final normalization -/

theorem pyCharMap_idem (c : Char) : pyCharMap (pyCharMap c) = pyCharMap c := by
  by_cases h : c = '-' ∨ c = '.'
  · have h2 : ¬('_' = '-' ∨ '_' = '.') := by decide
    simp [pyCharMap, h, h2]
  · simp [pyCharMap, h]

theorem map_id_of_mem {l : List Char} {f : Char → Char} (h : ∀ c ∈ l, f c = c) :
    l.map f = l := by
  induction l with
  | nil => rfl
  | cons a t ih =>
    simp only [List.map_cons, List.cons.injEq]
    exact ⟨h a (List.mem_cons_self a t), ih fun c hc => h c (List.mem_cons_of_mem a hc)⟩

theorem mem_collapseU {c : Char} : ∀ {l : List Char}, c ∈ collapseU l → c ∈ l := by
  intro l
  induction l with
  | nil => intro h; cases h
  | cons a t ih =>
    intro h
    cases t with
    | nil => exact h
    | cons b t' =>
      simp only [collapseU] at h
      split at h
      · exact List.mem_cons_of_mem a (ih h)
      · rcases List.mem_cons.mp h with heq | hmem
        · exact heq ▸ List.mem_cons_self a (b :: t')
        · exact List.mem_cons_of_mem a (ih hmem)

theorem mem_stripL {c : Char} {l : List Char} (h : c ∈ stripL l) : c ∈ l :=
  List.dropWhile_subset isUnderscore h

theorem mem_stripR {c : Char} {l : List Char} (h : c ∈ stripR l) : c ∈ l := by
  unfold stripR at h
  have := List.dropWhile_subset isUnderscore (List.mem_reverse.mp h)
  exact List.mem_reverse.mp this

theorem mem_stripU {c : Char} {l : List Char} (h : c ∈ stripU l) : c ∈ l :=
  mem_stripL (mem_stripR h)

theorem mem_normalizeId {c : Char} {l : List Char} (h : c ∈ normalizeId l) :
    c ∈ l.map pyCharMap :=
  mem_collapseU (mem_stripU h)

theorem noDUs_symm {a b : Char} (h : NoDUs a b) : NoDUs b a := by
  unfold NoDUs at h ⊢
  tauto

theorem collapseU_head? (b : Char) (t : List Char) :
    (collapseU (b :: t)).head? = some b := by
  induction t generalizing b with
  | nil => rfl
  | cons c t' ih =>
    show (if b = '_' ∧ c = '_' then collapseU (c :: t')
      else b :: collapseU (c :: t')).head? = some b
    split
    · rename_i hbc
      rw [ih c, hbc.1, hbc.2]
    · simp

theorem chain'_collapseU (l : List Char) : List.Chain' NoDUs (collapseU l) := by
  induction l with
  | nil => simp [collapseU]
  | cons a t ih =>
    cases t with
    | nil => simp [collapseU]
    | cons b t' =>
      show List.Chain' NoDUs (if a = '_' ∧ b = '_' then collapseU (b :: t')
        else a :: collapseU (b :: t'))
      split
      · exact ih
      · rename_i hab
        rw [List.chain'_cons']
        refine ⟨?_, ih⟩
        intro y hy
        rw [collapseU_head? b t'] at hy
        have hyb : b = y := by simpa using hy
        subst hyb
        exact hab

theorem collapseU_eq_self {l : List Char} (h : List.Chain' NoDUs l) :
    collapseU l = l := by
  induction l with
  | nil => rfl
  | cons a t ih =>
    cases t with
    | nil => rfl
    | cons b t' =>
      show (if a = '_' ∧ b = '_' then collapseU (b :: t')
        else a :: collapseU (b :: t')) = a :: b :: t'
      rw [if_neg (List.chain'_cons.mp h).1, ih h.tail]

theorem chain'_dropWhile {p : Char → Bool} {l : List Char}
    (h : List.Chain' NoDUs l) : List.Chain' NoDUs (l.dropWhile p) := by
  induction l with
  | nil => simp
  | cons a t ih =>
    rw [List.dropWhile_cons]
    split
    · exact ih h.tail
    · exact h

theorem chain'_reverse_noDUs {l : List Char} (h : List.Chain' NoDUs l) :
    List.Chain' NoDUs l.reverse := by
  rw [List.chain'_reverse]
  exact List.Chain'.imp (fun a b hab => noDUs_symm hab) h

theorem dropWhile_head?_not {p : Char → Bool} {l : List Char} {c : Char}
    (h : (l.dropWhile p).head? = some c) : p c = false := by
  have hw := List.head?_dropWhile_not p l
  rw [h] at hw
  exact hw

theorem dropWhile_eq_self_of_head {p : Char → Bool} {l : List Char}
    (h : ∀ c, l.head? = some c → p c = false) : l.dropWhile p = l := by
  cases l with
  | nil => rfl
  | cons a t =>
    have ha := h a rfl
    simp [List.dropWhile_cons, ha]

theorem dropWhile_idem {p : Char → Bool} (l : List Char) :
    (l.dropWhile p).dropWhile p = l.dropWhile p :=
  dropWhile_eq_self_of_head (fun _ hc => dropWhile_head?_not hc)

theorem stripR_idem (l : List Char) : stripR (stripR l) = stripR l := by
  unfold stripR
  rw [List.reverse_reverse, dropWhile_idem]

theorem stripR_append (l : List Char) : ∃ t, stripR l ++ t = l := by
  rcases List.dropWhile_suffix (l := l.reverse) isUnderscore with ⟨t, ht⟩
  refine ⟨t.reverse, ?_⟩
  unfold stripR
  rw [← List.reverse_append, ht, List.reverse_reverse]

theorem stripU_idem (l : List Char) : stripU (stripU l) = stripU l := by
  unfold stripU
  have h1 : stripL (stripR (stripL l)) = stripR (stripL l) := by
    apply dropWhile_eq_self_of_head
    intro c hc
    rcases stripR_append (stripL l) with ⟨t, ht⟩
    have hyhead : (stripL l).head? = some c := by
      rw [← ht]
      cases hsr : stripR (stripL l) with
      | nil => rw [hsr] at hc; cases hc
      | cons d ds =>
        rw [hsr] at hc
        simpa using hc
    exact dropWhile_head?_not hyhead
  rw [h1, stripR_idem]

theorem chain'_stripU {l : List Char} (h : List.Chain' NoDUs l) :
    List.Chain' NoDUs (stripU l) := by
  unfold stripU stripR stripL
  apply chain'_reverse_noDUs
  apply chain'_dropWhile
  apply chain'_reverse_noDUs
  apply chain'_dropWhile
  exact h

theorem chain'_normalizeId (l : List Char) : List.Chain' NoDUs (normalizeId l) :=
  chain'_stripU (chain'_collapseU _)

theorem normalizeId_map_pyCharMap (l : List Char) :
    (normalizeId l).map pyCharMap = normalizeId l := by
  apply map_id_of_mem
  intro c hc
  rcases List.mem_map.mp (mem_normalizeId hc) with ⟨d, _, hd⟩
  rw [← hd, pyCharMap_idem]

/-- The final normalization of `parse_filename` is idempotent. -/
theorem normalizeId_idem (l : List Char) :
    normalizeId (normalizeId l) = normalizeId l := by
  show stripU (collapseU ((normalizeId l).map pyCharMap)) = normalizeId l
  rw [normalizeId_map_pyCharMap, collapseU_eq_self (chain'_normalizeId l)]
  show stripU (stripU (collapseU (l.map pyCharMap))) = normalizeId l
  rw [stripU_idem]
  rfl

/-! ## `parse_filename` plumbing -/

theorem parseFilename_no_match (patterns : List Regex)
    (freqs : List (Regex × Frequency)) (rg : List String) (fill : Char)
    (filename : List Char) (hm : firstPatternMatch patterns filename = none) :
    parseFilename patterns freqs rg fill filename =
      .ok (normalizeId filename, none, searchFrequency freqs filename) := by
  unfold parseFilename
  rw [hm]

theorem parseFilename_match_ok (patterns : List Regex)
    (freqs : List (Regex × Frequency)) (rg : List String) (fill : Char)
    (filename : List Char) (p : Regex) (m : MatchData)
    (fid : List Char) (ts : Option (List Char)) (fr : Option Frequency)
    (hm : firstPatternMatch patterns filename = some (p, m))
    (h : parseFilename patterns freqs rg fill filename = .ok (fid, ts, fr)) :
    ∃ out, redactLoop fill filename m rg filename = .ok out ∧
      fid = normalizeId out := by
  unfold parseFilename at h
  rw [hm] at h
  simp only [bind, Except.bind] at h
  split at h
  · cases h
  · split at h
    · cases h
    · rename_i out' heq
      injection h with h'
      exact ⟨out', heq, (congrArg (fun q => q.1) h').symm⟩

theorem parseFilename_fid_normalized (patterns : List Regex)
    (freqs : List (Regex × Frequency)) (rg : List String) (fill : Char)
    (filename : List Char) (fid : List Char) (ts : Option (List Char))
    (fr : Option Frequency)
    (h : parseFilename patterns freqs rg fill filename = .ok (fid, ts, fr)) :
    ∃ w, fid = normalizeId w := by
  cases hm : firstPatternMatch patterns filename with
  | none =>
    rw [parseFilename_no_match patterns freqs rg fill filename hm] at h
    injection h with h'
    exact ⟨filename, (congrArg (fun q => q.1) h').symm⟩
  | some pm =>
    rcases parseFilename_match_ok patterns freqs rg fill filename pm.1 pm.2
      fid ts fr hm h with ⟨out, _, hfid⟩
    exact ⟨out, hfid⟩

/-- Shared redaction result: when the first matching pattern has match data
`m`, a successful run of the redaction loop preserves the filename's length
and every participating redaction group's span holds, position by position,
the redacted image of the original filename. -/
theorem redactLoop_redacts (patterns : List Regex) (rg : List String)
    (fill : Char) (filename : List Char) (p : Regex) (m : MatchData)
    (hm : firstPatternMatch patterns filename = some (p, m))
    (out : List Char)
    (hout : redactLoop fill filename m rg filename = .ok out) :
    out.length = filename.length ∧
    ∀ g, g ∈ rg → g ∈ m.names → ∀ a b, m.caps.lookup g = some (a, b) →
      ∀ i, a ≤ i → i < b → out[i]? = (filename[i]?).map (redactChar fill) := by
  have hcv : CapsValid m.caps filename :=
    firstPatternMatch_caps_valid patterns filename p m hm
  rcases redactLoop_spec fill filename m hcv rg filename out rfl hout with ⟨hl, _, hr⟩
  exact ⟨hl, fun g hg hgn a b hsp i hai hib => hr g hg hgn a b hsp i hai hib⟩

/-! ## Claims C1, C3, C4, C10 about `parse_filename` -/

/-- Claim C10: with a single-character fill, every redaction substitution
inside `parse_filename` is one-for-one and preserves the length of the
working file id, so the spans recorded by the match against the original
filename remain valid indices for every later redaction group, and each
designated span (as with `Mom6Builder`'s two redaction groups) is redacted at
its correct position: inside a span, position `i` holds the redacted image of
the original character at `i`. -/
theorem claim_C10 (patterns : List Regex) (rg : List String) (fill : Char)
    (filename : List Char) (p : Regex) (m : MatchData)
    (hm : firstPatternMatch patterns filename = some (p, m))
    (out : List Char)
    (hout : redactLoop fill filename m rg filename = .ok out) :
    out.length = filename.length ∧
    ∀ g, g ∈ rg → g ∈ m.names → ∀ a b, m.caps.lookup g = some (a, b) →
      ∀ i, a ≤ i → i < b → out[i]? = (filename[i]?).map (redactChar fill) :=
  redactLoop_redacts patterns rg fill filename p m hm out hout

/-- Witness for C10 at `Mom6Builder`'s patterns and redaction groups: the
first (snapshot) pattern matches `19900101.ocean_daily.1990_123` with
`ts ↦ (0,8)` and `mom6_added_timestamp ↦ (21,29)`; the redacted id keeps
length 29 and position 21 (inside the second group, three splices after the
first) holds the redaction of the original digit. -/
theorem claim_C10_witness :
    ("XXXXXXXX.ocean_daily.XXXX_XXX".data).length =
      ("19900101.ocean_daily.1990_123".data).length ∧
    ("XXXXXXXX.ocean_daily.XXXX_XXX".data)[21]? =
      (("19900101.ocean_daily.1990_123".data)[21]?).map (redactChar 'X') := by
  have h := claim_C10 mom6Patterns mom6RedactionGroups 'X'
    "19900101.ocean_daily.1990_123".data mom6Pattern1
    ⟨mom6Pattern1.groupNames,
      [("mom6_added_timestamp", (21, 29)), ("3", (21, 29)), ("ts", (0, 8))]⟩
    (by decide) "XXXXXXXX.ocean_daily.XXXX_XXX".data (by decide)
  exact ⟨h.1,
    h.2 "mom6_added_timestamp" (by decide) (by decide) 21 29 (by decide) 21
      (by decide) (by decide)⟩

/-- Counterexample to claim C1 as frozen: the claim quantifies over every
single-character fill, but with the digit fill `'5'` and pattern
`^(?P<ts>\d)$` the filename `1` yields file_id `5`, whose character at
position 0 lies inside the redaction span `(0, 1)` of the matching pattern
and is a digit. -/
theorem claim_C1_counterexample :
    parseFilename [tsDigitPattern] [] [TIMESTAMP_GROUP] '5' "1".data =
      .ok ("5".data, some "1".data, none) ∧
    firstPatternMatch [tsDigitPattern] "1".data =
      some (tsDigitPattern, ⟨tsDigitPattern.groupNames, [("ts", (0, 1))]⟩) ∧
    redactLoop '5' "1".data ⟨tsDigitPattern.groupNames, [("ts", (0, 1))]⟩
        [TIMESTAMP_GROUP] "1".data = .ok "5".data ∧
    ("5".data)[0]? = some '5' ∧ ('5').isDigit = true := by decide

/-- Claim C1 (amended: the fill character must not itself be a digit; as
frozen the claim quantifies over every single-character fill and fails for
digit fills, which re-insert digits into the redacted spans).  If some
pattern matches: every participating redaction-target span of the redacted
working id contains no digit character, and the file_id returned by
`parse_filename` is its final normalization.  If no pattern matches: the
returned file_id is the filename with `-`/`.` replaced by `_`, repeated `_`
collapsed and boundary `_` stripped, the timestamp is `None`, and nothing is
redacted. -/
theorem claim_C1_amended (patterns : List Regex)
    (freqs : List (Regex × Frequency)) (rg : List String) (fill : Char)
    (filename : List Char) :
    (∀ p m, firstPatternMatch patterns filename = some (p, m) →
      ¬fill.isDigit = true →
      ∀ out, redactLoop fill filename m rg filename = .ok out →
        (∀ g, g ∈ rg → g ∈ m.names → ∀ a b, m.caps.lookup g = some (a, b) →
          ∀ i c, a ≤ i → i < b → out[i]? = some c → ¬c.isDigit = true) ∧
        (∀ fid ts fr,
          parseFilename patterns freqs rg fill filename = .ok (fid, ts, fr) →
          fid = normalizeId out)) ∧
    (firstPatternMatch patterns filename = none →
      parseFilename patterns freqs rg fill filename =
        .ok (normalizeId filename, none, searchFrequency freqs filename)) := by
  constructor
  · intro p m hm hfill out hout
    constructor
    · intro g hg hgn a b hsp i c hai hib hc
      have hred :=
        (redactLoop_redacts patterns rg fill filename p m hm out hout).2
          g hg hgn a b hsp i hai hib
      rw [hc] at hred
      cases hfi : filename[i]? with
      | none => rw [hfi] at hred; cases hred
      | some d =>
        rw [hfi] at hred
        simp only [Option.map_some'] at hred
        injection hred with hcd
        subst hcd
        unfold redactChar
        split
        · exact hfill
        · rename_i hd
          simpa using hd
    · intro fid ts fr hpf
      rcases parseFilename_match_ok patterns freqs rg fill filename p m fid ts fr
        hm hpf with ⟨out', hout', hfid⟩
      rw [hout] at hout'
      injection hout' with he
      rw [hfid, ← he]
  · intro hm
    exact parseFilename_no_match patterns freqs rg fill filename hm

/-- Witness for the amended C1 at the non-digit fill `'X'`, pattern
`^(?P<ts>\d)$`, filename `1`: position 0 of the redacted id is not a digit
and the returned file_id is the normalization of the redacted id. -/
theorem claim_C1_witness :
    ¬('X').isDigit = true ∧ "X".data = normalizeId "X".data := by
  have h := (claim_C1_amended [tsDigitPattern] [] [TIMESTAMP_GROUP] 'X' "1".data).1
    tsDigitPattern ⟨tsDigitPattern.groupNames, [("ts", (0, 1))]⟩
    (by decide) (by decide) "X".data (by decide)
  exact ⟨h.1 "ts" (by decide) (by decide) 0 1 (by decide) 0 'X' (by decide)
      (by decide) (by decide),
    h.2 "X".data (some "1".data) none (by decide)⟩

/-- Claim C3: the spec's worked example.  Pattern
`^iceh.*\.(?P<ts>\d{4}-\d{2})$` applied to `iceh.1991-01` with fill `'X'`
yields file_id `iceh_XXXX_XX` and timestamp `1991-01` (and no frequency). -/
theorem claim_C3 :
    parseFilename [icehExamplePattern] FREQUENCIES [TIMESTAMP_GROUP] 'X'
      "iceh.1991-01".data =
    .ok ("iceh_XXXX_XX".data, some "1991-01".data, none) := by decide

/-- Counterexample to claim C4 as frozen: idempotence fails when a later
pattern matches the already-redacted file id.  With patterns
`^(?P<ts>\d)-\d$` and `^X_(?P<ts>\d)$` (fill `'X'`), filename `1-1` yields
file_id `X_1`, but re-parsing `X_1` matches the second pattern and yields
`X_X`. -/
theorem claim_C4_counterexample :
    parseFilename [c4PatternA, c4PatternB] FREQUENCIES [TIMESTAMP_GROUP] 'X'
      "1-1".data = .ok ("X_1".data, some "1".data, none) ∧
    parseFilename [c4PatternA, c4PatternB] FREQUENCIES [TIMESTAMP_GROUP] 'X'
      "X_1".data = .ok ("X_X".data, some "1".data, none) ∧
    "X_X".data ≠ "X_1".data :=
  ⟨by decide, by decide, by decide⟩

/-- Claim C4 (amended: feeding the returned file_id back into
`parse_filename` with the same patterns and fill returns it unchanged
whenever no pattern matches the returned file_id — in particular
re-normalization is always a no-op, `normalizeId` being idempotent; when some
pattern does match the redacted id, a second pass may redact further digits,
as the counterexample shows). -/
theorem claim_C4_amended (patterns : List Regex)
    (freqs : List (Regex × Frequency)) (rg : List String) (fill : Char)
    (filename fid : List Char) (ts : Option (List Char)) (fr : Option Frequency)
    (h1 : parseFilename patterns freqs rg fill filename = .ok (fid, ts, fr))
    (h2 : firstPatternMatch patterns fid = none) :
    parseFilename patterns freqs rg fill fid =
      .ok (fid, none, searchFrequency freqs fid) := by
  rcases parseFilename_fid_normalized patterns freqs rg fill filename fid ts fr h1
    with ⟨w, rfl⟩
  rw [parseFilename_no_match patterns freqs rg fill (normalizeId w) h2,
    normalizeId_idem]

/-- Witness for the amended C4: the spec's worked example redacts
`iceh.1991-01` to `iceh_XXXX_XX`; no pattern matches the redacted id, and the
second pass returns it unchanged. -/
theorem claim_C4_witness :
    parseFilename [icehExamplePattern] FREQUENCIES [TIMESTAMP_GROUP] 'X'
        "iceh_XXXX_XX".data =
      .ok ("iceh_XXXX_XX".data, none,
        searchFrequency FREQUENCIES "iceh_XXXX_XX".data) :=
  claim_C4_amended [icehExamplePattern] FREQUENCIES [TIMESTAMP_GROUP] 'X'
    "iceh.1991-01".data "iceh_XXXX_XX".data (some "1991-01".data) none
    (by decide) (by decide)

/-! ## Claim C9: unmatched paths in `AccessOm2Builder.parser` -/

/-- Claim C9: for every file path that does not match the path regex
`.*/output\d+/([^/]*)/.*\.nc`, `AccessOm2Builder.parser` returns the
invalid-asset sentinel for that path — whatever `parse_ncfile` would have
returned — because the `realm` local is referenced while unbound and the
resulting `NameError` is converted into the sentinel. -/
theorem claim_C9 (parseNc : List Char → Except PyErr NCFileInfo)
    (file : List Char) (hnm : reMatch om2PathPattern file = none) :
    accessOm2Parser parseNc file = .ok (sentinelDict file .nameError) := by
  unfold accessOm2Parser
  rw [hnm]
  rfl

/-- Witness for C9: `a.nc` has no `/output<digits>/<component>/` segment, and
the parser returns the NameError sentinel even though the supplied
`parse_ncfile` succeeds with a long_name-bearing variable. -/
theorem claim_C9_witness :
    reMatch om2PathPattern "a.nc".data = none ∧
    accessOm2Parser
      (fun f => .ok
        { filename := "a.nc".data
        , path := f
        , file_id := "a".data
        , filename_timestamp := none
        , frequency := "1mon".data
        , start_date := "none".data
        , end_date := "none".data
        , variableList := ["temp".data]
        , variableLongName := ["temperature".data]
        , variableStandardName := [[]]
        , variableUnits := [[]]
        , variableCellMethods := [[]] })
      "a.nc".data = .ok (sentinelDict "a.nc".data .nameError) :=
  ⟨by decide, claim_C9 _ "a.nc".data (by decide)⟩

/-! ## Claim C2: exception isolation in the per-asset parsers -/

/-- Counterexample to claim C2 as frozen: `MopperBuilder.parser` has no
try/except wrapper.  With a readable dataset holding a long_name-bearing
variable, its own `parse_ncfile` raises `KeyError` (it looks up the variable
named by the empty default `exargs`), and the parser propagates it; and even
when `parse_ncfile` succeeds, `.to_dict()` on the returned tuple raises
`AttributeError`, also propagated. -/
theorem claim_C2_counterexample :
    mopperParser (fun _ _ => .ok "none".data)
      (.ok ⟨[("tas".data, [("long_name", "air temperature".data)])], []⟩)
      "/base/v1/mon/tas/tas_ACCESS_e1_mon_199001010000-199101010000.nc".data
      none = .error .keyError ∧
    mopperParser (fun _ _ => .ok "none".data)
      (.ok ⟨[([], [("long_name", "x".data)])], []⟩)
      "f.nc".data none = .error .attributeError :=
  ⟨by decide, by decide⟩

/-- Claim C2 (amended: the blanket handler of `AccessOm2Builder`,
`AccessOm3Builder`, `Mom6Builder` and `AccessEsm15Builder` converts any
exception into the invalid-asset sentinel carrying the original path and the
captured traceback, and those four parsers never propagate an exception;
`MopperBuilder.parser` wraps nothing and does propagate, as the
counterexample shows). -/
theorem claim_C2_amended :
    (∀ body (file : List Char) (e : PyErr), body = .error e →
      pyTry body file = .ok (sentinelDict file e)) ∧
    (∀ (parseNc : List Char → Except PyErr NCFileInfo) (file : List Char),
      (∃ d, accessOm2Parser parseNc file = .ok d) ∧
      (∃ d, accessOm3Parser parseNc file = .ok d) ∧
      (∃ d, mom6Parser parseNc file = .ok d) ∧
      (∃ d, accessEsm15Parser parseNc file = .ok d)) := by
  have hTry : ∀ (body : Except PyErr Dict) (file : List Char),
      ∃ d, pyTry body file = .ok d := by
    intro body file
    cases body with
    | ok d => exact ⟨d, rfl⟩
    | error e => exact ⟨sentinelDict file e, rfl⟩
  refine ⟨?_, ?_⟩
  · intro body file e he
    rw [he]
    rfl
  · intro parseNc file
    exact ⟨hTry _ file, hTry _ file, hTry _ file, hTry _ file⟩

/-- Witness for the amended C2: a raised `KeyError` becomes the sentinel, and
the `AccessOm2Builder` parser yields a record even when `parse_ncfile`
fails. -/
theorem claim_C2_witness :
    pyTry (.error .keyError) "f.nc".data =
      .ok (sentinelDict "f.nc".data .keyError) ∧
    ∃ d, accessOm2Parser (fun _ => .error (.external "OSError")) "f.nc".data =
      .ok d :=
  ⟨claim_C2_amended.1 _ _ .keyError rfl,
    (claim_C2_amended.2 (fun _ => .error (.external "OSError")) "f.nc".data).1⟩

/-! ## Claim C8: version registry pointers -/

theorem verLtB_irrefl (a : List Char) : verLtB a a = false := by
  induction a with
  | nil => rfl
  | cons c cs ih => simp [verLtB, ih]

theorem verLtB_asymm : ∀ a b : List Char, verLtB a b = true → verLtB b a = false := by
  intro a
  induction a with
  | nil =>
    intro b h
    cases b with
    | nil => cases h
    | cons c cs => rfl
  | cons c cs ih =>
    intro b h
    cases b with
    | nil => cases h
    | cons d ds =>
      simp only [verLtB, Bool.or_eq_true, Bool.and_eq_true, decide_eq_true_eq] at h
      simp only [verLtB]
      rcases h with hlt | ⟨heq, hrec⟩
      · simp [lt_asymm hlt, ne_of_gt hlt]
      · subst heq
        simp [lt_irrefl, ih ds hrec]

/-- Counterexample to claim C8 as frozen: the repository's own tests pin
`default` to the newly built stamp, not to `max`.  With an existing registry
spanning `v2001-01-01 .. v2099-01-01`, a build stamped `v2024-01-01` keeps
`max = v2099-01-01` but sets `default = v2024-01-01 ≠ max` (exactly the
scenario of `test_build_existing_data`). -/
theorem claim_C8_counterexample :
    updateRegistry (some ("v2001-01-01".data, "v2099-01-01".data))
        "v2024-01-01".data =
      ⟨"v2001-01-01".data, "v2099-01-01".data, "v2024-01-01".data⟩ ∧
    (updateRegistry (some ("v2001-01-01".data, "v2099-01-01".data))
        "v2024-01-01".data).defaultV ≠
      (updateRegistry (some ("v2001-01-01".data, "v2099-01-01".data))
        "v2024-01-01".data).maxV :=
  ⟨by decide, by decide⟩

/-- Claim C8 (amended: after a build stamped `V`, `min = min(min0, V)` — so
`min` never regresses — and `max = max(max0, V)`, but `default` is the newly
built stamp `V`, which coincides with `max` only when `V` is not older than
`max0`; in particular two successive builds, the second with a later stamp,
leave `min` unchanged and advance both `max` and `default` to the new
stamp). -/
theorem claim_C8_amended :
    (∀ prior v, (updateRegistry prior v).defaultV = v) ∧
    (∀ mn mx v,
      (updateRegistry (some (mn, mx)) v).minV = verMin mn v ∧
      (updateRegistry (some (mn, mx)) v).maxV = verMax mx v ∧
      verLeB (updateRegistry (some (mn, mx)) v).minV mn = true ∧
      verLeB mx (updateRegistry (some (mn, mx)) v).maxV = true) ∧
    (∀ v1 v2, verLtB v1 v2 = true →
      updateRegistry (some ((updateRegistry none v1).minV,
        (updateRegistry none v1).maxV)) v2 = ⟨v1, v2, v2⟩) := by
  refine ⟨?_, ?_, ?_⟩
  · intro prior v
    cases prior with
    | none => rfl
    | some p => rfl
  · intro mn mx v
    refine ⟨rfl, rfl, ?_, ?_⟩
    · unfold updateRegistry verMin verLeB
      by_cases h : verLtB v mn = true
      · simp [h, verLtB_asymm v mn h]
      · simp [h, verLtB_irrefl]
    · unfold updateRegistry verMax verLeB
      by_cases h : verLtB mx v = true
      · simp [h, verLtB_asymm mx v h]
      · simp [h, verLtB_irrefl]
  · intro v1 v2 h12
    show VersionRegistry.mk (verMin v1 v2) (verMax v1 v2) v2 = ⟨v1, v2, v2⟩
    unfold verMin verMax
    rw [if_neg (by simp [verLtB_asymm v1 v2 h12]), if_pos h12]

/-- Witness for the amended C8: the two-build scenario of
`test_build_repeat_nochange` — a first build stamped `v2024-01-01`, a second
stamped `v2024-01-02` — leaves `min` at the old stamp and advances `max` and
`default` to the new one. -/
theorem claim_C8_witness :
    updateRegistry (some ((updateRegistry none "v2024-01-01".data).minV,
        (updateRegistry none "v2024-01-01".data).maxV)) "v2024-01-02".data =
      ⟨"v2024-01-01".data, "v2024-01-02".data, "v2024-01-02".data⟩ :=
  claim_C8_amended.2.2 "v2024-01-01".data "v2024-01-02".data (by decide)

/-! ## Claim C5: the asset metadata extractor -/

theorem foldl_appendAttrs (vars : List (List Char × AttrList)) :
    ∀ vi : VarInfo,
      vars.foldl (fun acc nv => acc.appendAttrs nv.1 nv.2) vi =
        ⟨ vi.variable_list ++
            (vars.filter (fun v => hasLongName v.2)).map (fun v => v.1)
        , vi.long_name_list ++
            (vars.filter (fun v => hasLongName v.2)).map
              (fun v => attrOr v.2 "long_name" [])
        , vi.standard_name_list ++
            (vars.filter (fun v => hasLongName v.2)).map
              (fun v => attrOr v.2 "standard_name" [])
        , vi.units_list ++
            (vars.filter (fun v => hasLongName v.2)).map
              (fun v => attrOr v.2 "units" [])
        , vi.cell_methods_list ++
            (vars.filter (fun v => hasLongName v.2)).map
              (fun v => attrOr v.2 "cell_methods" []) ⟩ := by
  induction vars with
  | nil =>
    intro vi
    cases vi
    simp
  | cons v vs ih =>
    intro vi
    simp only [List.foldl_cons, List.filter_cons]
    cases hln : v.2.lookup "long_name" with
    | some ln =>
      have hl : hasLongName v.2 = true := by simp [hasLongName, hln]
      rw [hl]
      simp only [if_pos trivial, List.map_cons]
      rw [ih]
      unfold VarInfo.appendAttrs
      rw [hln]
      have hlnv : attrOr v.2 "long_name" [] = ln := by simp [attrOr, hln]
      simp [hlnv]
    | none =>
      have hl : hasLongName v.2 = false := by simp [hasLongName, hln]
      rw [hl]
      simp only [Bool.false_eq_true, if_false]
      rw [ih]
      unfold VarInfo.appendAttrs
      rw [hln]

/-- Counterexample to claim C5 as frozen: the claim covers
`MopperBuilder.parse_ncfile` (its second cited source), but that override
does not implement the contract.  With a dataset holding a long_name-bearing
variable `tas` it raises `KeyError` (it looks up the variable named by the
caller, here the empty default) instead of returning the descriptors; and
with a dataset whose only variable carries no long_name it does not raise
`EmptyFileError`. -/
theorem claim_C5_counterexample :
    mopperParseNcfile (fun _ _ => .ok "none".data)
      (.ok ⟨[("tas".data, [("long_name", "air temperature".data)])], []⟩)
      "f.nc".data [] = .error .keyError ∧
    ¬ mopperParseNcfile (fun _ _ => .ok "none".data)
      (.ok ⟨[([], [])], []⟩) "f.nc".data [] = .error .emptyFileError :=
  ⟨by decide, by decide⟩

/-- Claim C5 (amended: the stated contract holds for
`BaseBuilder.parse_ncfile` — the extractor used by the AccessOm2/Om3/Mom6 and
AccessEsm15 builders — whenever the filename parse, the file open and the
time-resolution strategy themselves succeed; `MopperBuilder.parse_ncfile`
overrides it with different behaviour, per the counterexample).  The
extractor fails with `EmptyFileError` (the spec's `EmptyDatasetError`)
exactly when no variable carries a `long_name` attribute; on success the
variable descriptors are exactly the long_name-bearing variables in dataset
order, with absent `standard_name`/`units`/`cell_methods` defaulted to the
empty string. -/
theorem claim_C5_amended (patterns : List Regex) (rg : List String)
    (timeParser : TimeParser) (ds : DataSet) (file : List Char) (timeDim : String)
    (pf : List Char × Option (List Char) × Option Frequency)
    (td : List Char × List Char × List Char)
    (hpf : parseFilename patterns FREQUENCIES rg 'X' (pathStem file) = .ok pf)
    (htd : timeParser ds pf.2.2 timeDim = .ok td) :
    (baseParseNcfile patterns rg timeParser (.ok ds) file timeDim =
        .error .emptyFileError ↔
      ∀ v ∈ ds.dsVars, hasLongName v.2 = false) ∧
    (∀ info,
      baseParseNcfile patterns rg timeParser (.ok ds) file timeDim = .ok info →
      info.variableList =
        (ds.dsVars.filter (fun v => hasLongName v.2)).map (fun v => v.1) ∧
      info.variableLongName =
        (ds.dsVars.filter (fun v => hasLongName v.2)).map
          (fun v => attrOr v.2 "long_name" []) ∧
      info.variableStandardName =
        (ds.dsVars.filter (fun v => hasLongName v.2)).map
          (fun v => attrOr v.2 "standard_name" []) ∧
      info.variableUnits =
        (ds.dsVars.filter (fun v => hasLongName v.2)).map
          (fun v => attrOr v.2 "units" []) ∧
      info.variableCellMethods =
        (ds.dsVars.filter (fun v => hasLongName v.2)).map
          (fun v => attrOr v.2 "cell_methods" [])) := by
  have hfold := foldl_appendAttrs ds.dsVars emptyVarInfo
  have hbase : baseParseNcfile patterns rg timeParser (.ok ds) file timeDim =
      if ((ds.dsVars.filter (fun v => hasLongName v.2)).map
            (fun v => v.1)).isEmpty then .error .emptyFileError
      else .ok
        { filename := lastComponent file
        , path := file
        , file_id := pf.1
        , filename_timestamp := pf.2.1
        , frequency := td.2.2
        , start_date := td.1
        , end_date := td.2.1
        , variableList :=
            (ds.dsVars.filter (fun v => hasLongName v.2)).map (fun v => v.1)
        , variableLongName :=
            (ds.dsVars.filter (fun v => hasLongName v.2)).map
              (fun v => attrOr v.2 "long_name" [])
        , variableStandardName :=
            (ds.dsVars.filter (fun v => hasLongName v.2)).map
              (fun v => attrOr v.2 "standard_name" [])
        , variableUnits :=
            (ds.dsVars.filter (fun v => hasLongName v.2)).map
              (fun v => attrOr v.2 "units" [])
        , variableCellMethods :=
            (ds.dsVars.filter (fun v => hasLongName v.2)).map
              (fun v => attrOr v.2 "cell_methods" []) } := by
    simp only [emptyVarInfo, List.nil_append] at hfold
    simp only [baseParseNcfile, bind, Except.bind, hpf, htd, emptyVarInfo, hfold]
  rw [hbase]
  by_cases hemp :
      ((ds.dsVars.filter (fun v => hasLongName v.2)).map (fun v => v.1)).isEmpty
  · rw [if_pos hemp]
    constructor
    · constructor
      · intro _
        rw [List.isEmpty_eq_true, List.map_eq_nil_iff, List.filter_eq_nil_iff]
          at hemp
        intro v hv
        simpa using hemp v hv
      · intro _
        rfl
    · intro info hinfo
      cases hinfo
  · rw [if_neg hemp]
    constructor
    · constructor
      · intro h
        cases h
      · intro hall
        exfalso
        apply hemp
        rw [List.isEmpty_eq_true, List.map_eq_nil_iff, List.filter_eq_nil_iff]
        intro v hv
        simp [hall v hv]
    · intro info hinfo
      injection hinfo with h'
      rw [← h']
      exact ⟨rfl, rfl, rfl, rfl, rfl⟩

/-- Witness for the amended C5: with the example pattern and a trivial time
strategy, a dataset whose only variable lacks `long_name` makes the extractor
raise `EmptyFileError`, and one with a long_name-bearing variable does not. -/
theorem claim_C5_witness :
    baseParseNcfile [icehExamplePattern] [TIMESTAMP_GROUP]
        (fun _ _ _ => .ok ("t0".data, "t1".data, "1mon".data))
        (.ok ⟨[("lat".data, [])], []⟩) "iceh.1991-01.nc".data "time" =
      .error .emptyFileError ∧
    baseParseNcfile [icehExamplePattern] [TIMESTAMP_GROUP]
        (fun _ _ _ => .ok ("t0".data, "t1".data, "1mon".data))
        (.ok ⟨[("temp".data, [("long_name", "T".data)])], []⟩)
        "iceh.1991-01.nc".data "time" ≠ .error .emptyFileError := by
  constructor
  · exact (claim_C5_amended [icehExamplePattern] [TIMESTAMP_GROUP]
      (fun _ _ _ => .ok ("t0".data, "t1".data, "1mon".data))
      ⟨[("lat".data, [])], []⟩ "iceh.1991-01.nc".data "time"
      ("iceh_XXXX_XX".data, some "1991-01".data, none)
      ("t0".data, "t1".data, "1mon".data) (by decide) (by decide)).1.mpr
      (by decide)
  · intro hc
    have h := (claim_C5_amended [icehExamplePattern] [TIMESTAMP_GROUP]
      (fun _ _ _ => .ok ("t0".data, "t1".data, "1mon".data))
      ⟨[("temp".data, [("long_name", "T".data)])], []⟩ "iceh.1991-01.nc".data
      "time" ("iceh_XXXX_XX".data, some "1991-01".data, none)
      ("t0".data, "t1".data, "1mon".data) (by decide) (by decide)).1.mp hc
    have h2 := h ("temp".data, [("long_name", "T".data)]) (by decide)
    simp [hasLongName] at h2

/-! ## Claim C6: `validate_parser` -/

theorem validateParserLoop_spec (parser : List Char → Except PyErr Dict)
    (schema : Dict → Except PyErr Unit)
    (hs : ∀ d, schema d ≠ .error .parserError) :
    ∀ assets : List (List Char), (∀ a ∈ assets, ∃ d, parser a = .ok d) →
      (validateParserLoop parser schema assets = .error .parserError ↔
        ∀ a ∈ assets, ∀ d, parser a = .ok d →
          dictHasKey d INVALID_ASSET = true) ∧
      (∀ d, firstValidRecord parser assets = some d →
        validateParserLoop parser schema assets = schema d) := by
  intro assets
  induction assets with
  | nil =>
    intro _
    refine ⟨?_, ?_⟩
    · constructor
      · intro _ a ha
        exact absurd ha (List.not_mem_nil a)
      · intro _
        rfl
    · intro d hd
      cases hd
  | cons a rest ih =>
    intro htot
    rcases htot a (List.mem_cons_self a rest) with ⟨d0, hd0⟩
    have htot' : ∀ x ∈ rest, ∃ d, parser x = .ok d :=
      fun x hx => htot x (List.mem_cons_of_mem a hx)
    rcases ih htot' with ⟨ihiff, ihfirst⟩
    have hloop : validateParserLoop parser schema (a :: rest) =
        if dictHasKey d0 INVALID_ASSET then validateParserLoop parser schema rest
        else schema d0 := by
      simp only [validateParserLoop, bind, Except.bind, hd0]
    have hfirst : firstValidRecord parser (a :: rest) =
        if dictHasKey d0 INVALID_ASSET then firstValidRecord parser rest
        else some d0 := by
      simp only [firstValidRecord, hd0]
    by_cases hkey : dictHasKey d0 INVALID_ASSET
    · rw [if_pos hkey] at hloop hfirst
      rw [hloop, hfirst]
      refine ⟨?_, ihfirst⟩
      constructor
      · intro h x hx d hd
        rcases List.mem_cons.mp hx with heq | hmem
        · subst heq
          rw [hd0] at hd
          injection hd with hd'
          rw [← hd']
          exact hkey
        · exact ihiff.mp h x hmem d hd
      · intro hall
        exact ihiff.mpr fun x hx d hd => hall x (List.mem_cons_of_mem a hx) d hd
    · rw [if_neg hkey] at hloop hfirst
      rw [hloop, hfirst]
      refine ⟨?_, ?_⟩
      · constructor
        · intro h
          exact absurd h (hs d0)
        · intro hall
          exact absurd (hall a (List.mem_cons_self a rest) d0 hd0) hkey
      · intro d hd
        injection hd with hd'
        rw [← hd']

/-- Claim C6: for every non-empty asset set and non-raising parser,
`validate_parser` raises the "no valid assets" `ParserError` exactly when
every asset parses to an invalid-asset sentinel; otherwise it runs the schema
check on the first successfully parsed record, and that check's outcome —
including a schema violation — is the method's outcome (the exception
propagates).  The hypothesis on `schema` records that
`validate_against_schema` raises its own error class, never `ParserError`. -/
theorem claim_C6 (parser : List Char → Except PyErr Dict)
    (schema : Dict → Except PyErr Unit) (assets : List (List Char))
    (hne : assets ≠ [])
    (htot : ∀ a ∈ assets, ∃ d, parser a = .ok d)
    (hs : ∀ d, schema d ≠ .error .parserError) :
    (validateParser parser schema assets = .error .parserError ↔
      ∀ a ∈ assets, ∀ d, parser a = .ok d →
        dictHasKey d INVALID_ASSET = true) ∧
    (∀ d, firstValidRecord parser assets = some d →
      validateParser parser schema assets = schema d) := by
  have hloop := validateParserLoop_spec parser schema hs assets htot
  have hemp : assets.isEmpty = false := by
    cases assets with
    | nil => exact absurd rfl hne
    | cons x xs => rfl
  unfold validateParser
  rw [hemp]
  simpa using hloop

/-- Witness for C6: two assets, the first parsing to a sentinel and the
second to a plain record, with an always-accepting schema: `validate_parser`
does not raise `ParserError` and returns the schema outcome on the second
record. -/
theorem claim_C6_witness :
    ¬ validateParser
        (fun f => .ok (if f = "a".data then sentinelDict f .keyError
          else [("path", .vStr f)]))
        (fun _ => .ok ()) ["a".data, "b".data] = .error .parserError ∧
    validateParser
        (fun f => .ok (if f = "a".data then sentinelDict f .keyError
          else [("path", .vStr f)]))
        (fun _ => .ok ()) ["a".data, "b".data] = .ok () := by
  have h := claim_C6
    (fun f => .ok (if f = "a".data then sentinelDict f .keyError
      else [("path", .vStr f)]))
    (fun _ => .ok ()) ["a".data, "b".data] (by decide)
    (fun a _ => ⟨_, rfl⟩) (fun d hd => Except.noConfusion hd)
  constructor
  · intro hc
    have hall := h.1.mp hc
    have h2 := hall "b".data (by decide) [("path", .vStr "b".data)] (by decide)
    simp [dictHasKey, INVALID_ASSET] at h2
  · exact h.2 [("path", .vStr "b".data)] (by decide)

/-! ## Claim C7: `save` on an unbuilt table -/

/-- Claim C7: `BaseBuilder.save` raises `ValueError` exactly when the
in-memory table is empty; on a non-empty table it does not raise and persists
via `_save` with the fixed sidecar metadata; and the builder state (in
particular the table) is unchanged on every path, including the raising
one. -/
theorem claim_C7 (b : BuilderState) (name description : String)
    (directory : Option String) :
    ((builderSave b name description directory).2 = .error .valueError ↔
      b.df = []) ∧
    (builderSave b name description directory).1 = b ∧
    (∀ art, (builderSave b name description directory).2 = .ok art →
      art = builderSaveCall b name description directory ∧
      art.esmcatVersion = "0.0.1" ∧ art.catalogType = "file" ∧
      art.csvCompression = "gzip" ∧ art.name = name ∧
      art.description = description) := by
  unfold builderSave
  by_cases h : b.df.isEmpty
  · rw [if_pos h]
    rw [List.isEmpty_eq_true] at h
    refine ⟨by simp [h], rfl, ?_⟩
    intro art hart
    cases hart
  · rw [if_neg h]
    rw [List.isEmpty_eq_true] at h
    refine ⟨by simp [h], rfl, ?_⟩
    intro art hart
    injection hart with h'
    rw [← h']
    exact ⟨rfl, rfl, rfl, rfl, rfl, rfl⟩

/-- Witness for C7: an empty table raises `ValueError` leaving the state
unchanged; a one-row table persists. -/
theorem claim_C7_witness :
    (builderSave ⟨[], "netcdf", some ["file_id", "frequency"], []⟩
        "exp" "desc" none).2 = .error .valueError ∧
    (builderSave ⟨[], "netcdf", some ["file_id", "frequency"], []⟩
        "exp" "desc" none).1 =
      ⟨[], "netcdf", some ["file_id", "frequency"], []⟩ ∧
    (builderSave ⟨[[("path", .vStr "p".data)]], "netcdf",
        some ["file_id", "frequency"], []⟩ "exp" "desc" none).2 =
      .ok (builderSaveCall ⟨[[("path", .vStr "p".data)]], "netcdf",
        some ["file_id", "frequency"], []⟩ "exp" "desc" none) := by
  refine ⟨?_, ?_, by decide⟩
  · exact (claim_C7 ⟨[], "netcdf", some ["file_id", "frequency"], []⟩
      "exp" "desc" none).1.mpr rfl
  · exact (claim_C7 ⟨[], "netcdf", some ["file_id", "frequency"], []⟩
      "exp" "desc" none).2.1
